import Mathlib

/-!
# Verification of the route-controller declarative-route compiler

Shallow embedding of the compiler pass of `route-controller` (a Rust
proc-macro crate that lowers controller/route attribute text into an Axum
router).  Embedded components, each translated from the file named in its
doc comment:

* `ExtractorType`, `is_body_extractor`, `requires_feature`,
  `validate_extractors`                  -- src/parser/extractor_types.rs
* `validate_path_parameters` and path-placeholder extraction
                                          -- src/parser/route.rs
* route-path extraction from attribute token text (`extract_route_path`)
                                          -- src/parser/route.rs
* `analyze_params`                        -- src/parser/params.rs
* wrapper parameter / call-argument synthesis (`wrapperParams`,
  `callArgs`)                             -- src/generator/wrappers.rs
* `apply_middlewares`                     -- src/generator/middleware.rs
* wrapper-need conditions                 -- src/generator/router.rs

Hash maps are modelled as association lists; the list order stands for the
map's iteration order (which for Rust's `HashMap` is arbitrary), so
order-(in)dependence of the pass is stated as (in)variance under `List.Perm`
of the entry list.  Diagnostics are modelled as explicit values returned by
the validators rather than an ambient channel.
-/

namespace RouteController

/-- The closed set of extraction strategies, from
`src/parser/extractor_types.rs` (`enum ExtractorType`). -/
inductive ExtractorType where
  | Path
  | Query
  | HeaderParam
  | CookieParam
  | SessionParam
  | State
  | Json
  | Form
  | Bytes
  | Text
  | Html
  | Xml
  | JavaScript
  | None
deriving DecidableEq, Repr

namespace ExtractorType

/-- `ExtractorType::is_body_extractor` from src/parser/extractor_types.rs. -/
def is_body_extractor : ExtractorType → Bool
  | .Json | .Form | .Bytes | .Text | .Html | .Xml | .JavaScript => true
  | _ => false

/-- `ExtractorType::requires_feature` from src/parser/extractor_types.rs. -/
def requires_feature : ExtractorType → Option String
  | .HeaderParam => some "headers"
  | .CookieParam => some "cookies"
  | .SessionParam => some "sessions"
  | _ => none

/-- The `{:?}` (Debug) rendering of an extractor kind, used when the
validator formats diagnostic text. -/
def debugStr : ExtractorType → String
  | .Path => "Path"
  | .Query => "Query"
  | .HeaderParam => "HeaderParam"
  | .CookieParam => "CookieParam"
  | .SessionParam => "SessionParam"
  | .State => "State"
  | .Json => "Json"
  | .Form => "Form"
  | .Bytes => "Bytes"
  | .Text => "Text"
  | .Html => "Html"
  | .Xml => "Xml"
  | .JavaScript => "JavaScript"
  | .None => "None"

end ExtractorType

/-- First-match association-list lookup; models `HashMap::get` (keys of a
`HashMap` are unique, so the first match is the only match). -/
def lookupFirst {β : Type} (n : String) : List (String × β) → Option β
  | [] => none
  | (k, v) :: rest => if k = n then some v else lookupFirst n rest

/-- Build-time diagnostics emitted by `validate_extractors`
(src/parser/extractor_types.rs).  `abortMultipleBody` models
`abort_call_site!` (fatal, halts the handler's synthesis) and carries both
the offending entries and the rendered message; the other two model
`emit_call_site_warning!` (advisory). -/
inductive ExtDiag where
  | abortMultipleBody (offending : List (String × ExtractorType)) (msg : String)
  | warnBodyOnMethod (param : String) (kind : ExtractorType) (method : String)
  | warnFeatureRequired (param : String) (kind : ExtractorType) (feature : String)
deriving DecidableEq, Repr

/-- The `abort_call_site!` message text of the multiple-body-extractors
error, from src/parser/extractor_types.rs lines 80-87. -/
def multiBodyMsg (body : List (String × ExtractorType)) : String :=
  "Multiple body extractors found: "
    ++ String.intercalate ", "
        (body.map (fun p => p.1 ++ " (" ++ p.2.debugStr ++ ")"))
    ++ ". Only one body extractor is allowed per route."

/-- `validate_extractors` from src/parser/extractor_types.rs.  The entry
list stands for the `HashMap`'s iteration order.  `abort_call_site!`
panics, so when more than one body extractor is present no later warning is
emitted. -/
def validate_extractors (ex : List (String × ExtractorType)) (route_method : String) :
    List ExtDiag :=
  let body := ex.filter (fun p => p.2.is_body_extractor)
  if 1 < body.length then
    [.abortMultipleBody body (multiBodyMsg body)]
  else
    (if (route_method = "get" ∨ route_method = "head" ∨ route_method = "delete")
        ∧ body ≠ [] then
      match body with
      | [] => []
      | (n, e) :: _ => [.warnBodyOnMethod n e route_method]
    else [])
    ++ ex.filterMap (fun p =>
        (p.2.requires_feature).map (fun f => .warnFeatureRequired p.1 p.2 f))

/-- Whether a diagnostic is the fatal multiple-body-extractors abort. -/
def ExtDiag.isAbort : ExtDiag → Bool
  | .abortMultipleBody _ _ => true
  | _ => false

/-! ## Router assembly: middleware application (src/generator/middleware.rs) -/

/-- The shape of the router expression emitted by the generator: either the
accumulated base dispatch unit, or a `router.layer(axum::middleware::from_fn(mw))`
wrapping of an inner router.  In Axum, a layer added by `.layer` wraps
everything already in the router, so the wrapping middleware observes a
request before the inner router does. -/
inductive RouterExpr where
  | base (registrations : List String)
  | layerFn (mw : String) (inner : RouterExpr)
deriving DecidableEq, Repr

/-- `apply_middlewares` from src/generator/middleware.rs: an empty
middleware list returns the router unchanged; otherwise the middleware list
is reversed and each element wraps the accumulated router in turn. -/
def apply_middlewares (base_router : RouterExpr) (middlewares : List String) : RouterExpr :=
  if middlewares.isEmpty then
    base_router
  else
    let middlewares_reversed := middlewares.reverse
    middlewares_reversed.foldl (fun router mw => .layerFn mw router) base_router

/-- Outermost-first list of middlewares wrapped around a router: the order
in which the layers observe an incoming request. -/
def observeOrder : RouterExpr → List String
  | .base _ => []
  | .layerFn mw inner => mw :: observeOrder inner

/-! ## Parameter analysis (src/parser/params.rs) -/

/-- One declared handler parameter with its resolved extraction strategy
(`ParamInfo` in src/parser/params.rs).  The `syn` pattern and type carried
by the Rust struct are reduced to the parameter's name, which is all that
`generate_wrapper_functions` consults for binding and call order; the
declared Rust type tags along as an uninterpreted string. -/
structure ParamInfo where
  name : String
  ty : String
  extractor_type : ExtractorType
deriving DecidableEq, Repr

/-- `analyze_params` from src/parser/params.rs: walk the declared
parameters in signature order and resolve each one's extractor kind by name
lookup in the route's extractor map, defaulting to `None` when the map has
no entry for that name. -/
def analyze_params (sig : List (String × String))
    (extractor_map : List (String × ExtractorType)) : List ParamInfo :=
  sig.map (fun p =>
    { name := p.1
      ty := p.2
      extractor_type := (lookupFirst p.1 extractor_map).getD .None })

/-! ## Wrapper synthesis (src/generator/wrappers.rs) -/

/-- One parameter binding of a synthesized wrapper's signature, as pushed
onto `wrapper_params` in `generate_wrapper_functions`
(src/generator/wrappers.rs lines 91-241). -/
inductive Binding where
  /-- `axum::extract::Path((a, b, ...)): axum::extract::Path<(A, B, ...)>`;
  a one-element list models the single-parameter form. -/
  | pathBinding (names : List String)
  /-- `state: axum::extract::State<S>` -/
  | stateBinding (ty : String)
  /-- `headers: axum::http::HeaderMap` -/
  | headerMapBinding
  /-- `cookies: axum_extra::extract::CookieJar` -/
  | cookieJarBinding
  /-- `session: tower_sessions::Session` -/
  | sessionBinding
  /-- `axum::Json(name): axum::Json<T>` -/
  | jsonBinding (name : String)
  /-- `axum::Form(name): axum::Form<T>` -/
  | formBinding (name : String)
  /-- `axum::extract::Query(name): axum::extract::Query<T>` -/
  | queryBinding (name : String)
  /-- `name: axum::body::Bytes` -/
  | bytesBinding (name : String)
  /-- `name: String`, for the Text/Html/Xml/JavaScript kinds -/
  | stringBodyBinding (name : String)
  /-- `pat: ty`, a plain pass-through (`None`-kind) parameter -/
  | plainBinding (name : String)
deriving DecidableEq, Repr

/-- The binding a non-`Path` parameter contributes to `wrapper_params` in
the declared-order loop of `generate_wrapper_functions`
(src/generator/wrappers.rs lines 144-241); `Path` parameters and the
context/State kinds contribute none there. -/
def tailBinding (p : ParamInfo) : Option Binding :=
  match p.extractor_type with
  | .Path => none
  | .Json => some (.jsonBinding p.name)
  | .Form => some (.formBinding p.name)
  | .Query => some (.queryBinding p.name)
  | .Bytes => some (.bytesBinding p.name)
  | .Text | .Html | .Xml | .JavaScript => some (.stringBodyBinding p.name)
  | .HeaderParam | .CookieParam | .SessionParam | .State => none
  | .None => some (.plainBinding p.name)

/-- The combined `Path` binding pushed first (src/generator/wrappers.rs
lines 91-126): a single positional binding holding every `Path` parameter,
present iff some `Path` parameter exists. -/
def pathChunk (params : List ParamInfo) : List Binding :=
  let path_params := params.filter (fun p => p.extractor_type = .Path)
  if path_params.isEmpty then [] else [.pathBinding (path_params.map (·.name))]

/-- The shared `State` binding (src/generator/wrappers.rs lines 129-133),
typed by the first `State` parameter when one exists. -/
def stateChunk (params : List ParamInfo) : List Binding :=
  match params.find? (fun p => p.extractor_type = .State) with
  | some p => [.stateBinding p.ty]
  | none => []

/-- The shared `HeaderMap` binding, added once iff some parameter reads a
header (src/generator/wrappers.rs lines 134-136). -/
def headerChunk (params : List ParamInfo) : List Binding :=
  if params.any (fun p => p.extractor_type = .HeaderParam) then
    [.headerMapBinding] else []

/-- The shared `CookieJar` binding, added once iff some parameter reads a
cookie (src/generator/wrappers.rs lines 137-139). -/
def cookieChunk (params : List ParamInfo) : List Binding :=
  if params.any (fun p => p.extractor_type = .CookieParam) then
    [.cookieJarBinding] else []

/-- The shared `Session` binding, added once iff some parameter reads the
session (src/generator/wrappers.rs lines 140-142). -/
def sessionChunk (params : List ParamInfo) : List Binding :=
  if params.any (fun p => p.extractor_type = .SessionParam) then
    [.sessionBinding] else []

/-- The wrapper's parameter list, in the order `generate_wrapper_functions`
pushes onto `wrapper_params` (src/generator/wrappers.rs lines 91-241):
first the combined `Path` binding if any `Path` parameter exists, then the
shared `State`/headers/cookies/session bindings (each at most once), then
the remaining parameters in the handler's declared order. -/
def wrapperParams (params : List ParamInfo) : List Binding :=
  pathChunk params ++ stateChunk params ++ headerChunk params
    ++ cookieChunk params ++ sessionChunk params
    ++ params.filterMap tailBinding

/-- One argument expression of the generated `Self::handler(...)` call, as
pushed onto `call_args` in `generate_wrapper_functions`. -/
inductive CallArg where
  /-- the bound variable itself (`Path`, `Json`, `Form`, `Query`,
  Text-family and plain parameters) -/
  | var (name : String)
  /-- `name.to_vec()` for a `Bytes` parameter -/
  | bytesVec (name : String)
  /-- `headers.get("kebab-name").and_then(|v| v.to_str().ok()).unwrap_or("").to_string()` -/
  | headerLookup (name : String)
  /-- `cookies.get("name").map(|c| c.value().to_string()).unwrap_or_default()` -/
  | cookieLookup (name : String)
  /-- `session.get::<T>("name").await.ok().flatten().unwrap_or_default()` -/
  | sessionLookup (name : String)
  /-- `state.0.clone()`, forwarded for the `State`-kind parameter -/
  | stateClone (name : String)
deriving DecidableEq, Repr

/-- The declared parameter the argument expression supplies a value for. -/
def CallArg.paramName : CallArg → String
  | .var n | .bytesVec n | .headerLookup n | .cookieLookup n
  | .sessionLookup n | .stateClone n => n

/-- The call argument a non-`Path` parameter contributes in the
declared-order loop of `generate_wrapper_functions` (every non-`Path`
parameter contributes exactly one). -/
def tailArg (p : ParamInfo) : Option CallArg :=
  match p.extractor_type with
  | .Path => none
  | .Json | .Form | .Query => some (.var p.name)
  | .Bytes => some (.bytesVec p.name)
  | .Text | .Html | .Xml | .JavaScript => some (.var p.name)
  | .HeaderParam => some (.headerLookup p.name)
  | .CookieParam => some (.cookieLookup p.name)
  | .SessionParam => some (.sessionLookup p.name)
  | .State => some (.stateClone p.name)
  | .None => some (.var p.name)

/-- The argument list of the generated `Self::handler(...)` call, in the
order `generate_wrapper_functions` pushes onto `call_args`: the `Path`
parameters' variables first (lines 111-124), then every other parameter's
expression in the handler's declared order (lines 144-241). -/
def callArgs (params : List ParamInfo) : List CallArg :=
  (params.filter (fun p => p.extractor_type = .Path)).map (fun p => .var p.name)
  ++ params.filterMap tailArg

/-! ## Path-parameter validation (src/parser/route.rs) -/

/-- The placeholder name a single path segment contributes, from
`validate_path_parameters` (src/parser/route.rs lines 24-30): a `{name}`
segment via `strip_prefix('{')` / `strip_suffix('}')`, or a `:name` segment
via `strip_prefix(':')`. -/
def segPlaceholder (seg : List Char) : Option (List Char) :=
  match seg with
  | '{' :: rest =>
    if rest.getLast? = some '}' then some (rest.dropLast) else none
  | ':' :: rest => some rest
  | _ => none

/-- Keep the first occurrence of each element, dropping later duplicates;
models collecting the placeholders into a `HashSet` (each name counted
once), with the set's arbitrary iteration order pinned to first-occurrence
order. -/
def dedupKeepFirst : List String → List String
  | [] => []
  | x :: rest =>
    x :: (dedupKeepFirst rest).filter (fun y => y ≠ x)

/-- Split a character list on a separator character, as Rust's
`str::split`. -/
def splitOnChar (sep : Char) (s : List Char) : List (List Char) :=
  match s with
  | [] => [[]]
  | c :: rest =>
    let tail := splitOnChar sep rest
    if c = sep then [] :: tail
    else
      match tail with
      | [] => [[c]]
      | seg :: segs => (c :: seg) :: segs

/-- The set of `{name}` / `:name` placeholders of a route path, from
`validate_path_parameters` (src/parser/route.rs lines 21-30). -/
def pathPlaceholders (path : String) : List String :=
  dedupKeepFirst
    (((splitOnChar '/' path.toList).filterMap segPlaceholder).map (fun l => String.mk l))

/-- Diagnostics emitted by `validate_path_parameters`
(src/parser/route.rs lines 19-77); the first two model
`emit_call_site_error!` (fatal), the last models
`emit_call_site_warning!` (advisory). -/
inductive PathDiag where
  /-- a placeholder whose extractor-map entry has a kind other than `Path` -/
  | errWrongKind (param : String) (path : String) (kind : ExtractorType)
  /-- a placeholder with no extractor-map entry at all -/
  | errMissing (param : String) (path : String)
  /-- a `Path`-kind entry whose name is not a placeholder of the path -/
  | warnNotInPath (param : String) (path : String)
deriving DecidableEq, Repr

/-- Whether a path diagnostic is fatal (an `emit_call_site_error!`). -/
def PathDiag.isError : PathDiag → Bool
  | .errWrongKind _ _ _ => true
  | .errMissing _ _ => true
  | .warnNotInPath _ _ => false

/-- `validate_path_parameters` from src/parser/route.rs: error for every
placeholder that lacks a `Path`-kinded entry, then warn for every
`Path`-kinded entry that is not a placeholder.  The `HashSet`/`HashMap`
iteration orders only affect the order of the diagnostics, pinned here to
first-occurrence order. -/
def validate_path_parameters (path : String)
    (extractors : List (String × ExtractorType)) : List PathDiag :=
  let path_params := pathPlaceholders path
  (path_params.filterMap (fun param =>
    match lookupFirst param extractors with
    | some .Path => none
    | some other => some (.errWrongKind param path other)
    | none => some (.errMissing param path)))
  ++ ((extractors.filter (fun e => e.2 = .Path)).filterMap (fun e =>
    if e.1 ∈ path_params then none else some (.warnNotInPath e.1 path)))

/-- Whether `validate_path_parameters` accepts the route, i.e. emits no
fatal error. -/
def acceptsPathParams (path : String) (extractors : List (String × ExtractorType)) :
    Bool :=
  (validate_path_parameters path extractors).all (fun d => ¬ d.isError)

/-! ## Route-path extraction from attribute token text (src/parser/route.rs) -/

/-- Whether a character is not a double quote; the scanning predicate of
the `find('"')` calls in `extract_route_from_attrs`. -/
def isNotQuote (c : Char) : Bool := c ≠ '"'

/-- The route path parsed out of a route annotation's token text, from
`extract_route_from_attrs` (src/parser/route.rs lines 92-111): the default
is `/`; the first double-quoted literal anywhere in the text (when a
closing quote exists and the literal is non-empty) becomes the path,
prefixed with `/` when it does not already start with one.  The two
`find('"')` calls are modelled with `dropWhile`/`takeWhile` on the
character list. -/
def extract_route_path (attr_str : List Char) : String :=
  if (attr_str.dropWhile isNotQuote).isEmpty then "/"
  else
    let rest := (attr_str.dropWhile isNotQuote).tail
    if (rest.dropWhile isNotQuote).isEmpty then "/"
    else
      let p := rest.takeWhile isNotQuote
      if p.isEmpty then "/"
      else if p.head? = some '/' then String.mk p
      else String.mk ('/' :: p)

/-- The claim-side normalization of a non-empty quoted literal
(src/parser/route.rs lines 104-108): prefix `/` unless already present. -/
def normalizePath (p : List Char) : String :=
  if p.isEmpty then "/"
  else if p.head? = some '/' then String.mk p
  else String.mk ('/' :: p)

/-! ## Response-header augmentation

The controller-aware adapter synthesizer is the one piece of this
repository whose body is absent from the source snapshot: `generate_router_impl`
(src/generator/router.rs line 86) calls
`generate_wrapper_functions(impl_block, controller_config)` with the
controller configuration, but the `wrappers.rs` present defines only the
older one-argument version, which ignores controller-level headers and
could not satisfy the crate's own controller-header tests
(tests/13_response_headers.rs).  The header-merging emission of that
missing version is therefore modelled from the spec below. -/

/-- Insert one header into a header map, modelling
`http::HeaderMap::insert`: the value of an existing entry with the same
name is overwritten in place, otherwise the pair is appended.  Axum applies
the emitted `[(name, value), ...]` array to the response head in order with
exactly this insert. -/
def insertHeader (m : List (String × String)) (kv : String × String) :
    List (String × String) :=
  match m with
  | [] => [kv]
  | (n, v) :: rest =>
    if n = kv.1 then (n, kv.2) :: rest else (n, v) :: insertHeader rest kv

/-- Modelled from the spec: the header list the synthesized adapter emits
(missing controller-aware `generate_wrapper_functions`): "start from the
controller-level list, then apply route-level entries". -/
def merged_response_headers (controller route : List (String × String)) :
    List (String × String) :=
  controller ++ route

/-- The response-header map that results from applying an emitted header
list to an empty head, with `insertHeader` overwriting by name (last write
wins). -/
def headerMapOfList (l : List (String × String)) : List (String × String) :=
  l.foldl insertHeader []

/-- The last value written for a given header name in an emitted list
(the spec's "overwriting by header name, last write wins" read
declaratively). -/
def lastWrite (n : String) : List (String × String) → Option String
  | [] => none
  | (k, v) :: rest =>
    match lastWrite n rest with
    | some w => some w
    | none => if k = n then some v else none

/-- Modelled from the spec: the content-type the synthesized adapter emits
(missing controller-aware `generate_wrapper_functions`): the route-level
one when the route specifies it, "replacing content-type outright",
otherwise the controller-level one. -/
def emittedContentType (controllerCt routeCt : Option String) : Option String :=
  match routeCt with
  | some ct => some ct
  | none => controllerCt

/-! ## Wrapper-need decision (src/generator/router.rs, src/generator/wrappers.rs) -/

/-- `needs_wrapper` from src/generator/router.rs lines 26-28 (identical in
wrappers.rs lines 14-16): some parameter resolves to a non-`None`
extractor kind. -/
def needs_wrapper (params : List ParamInfo) : Bool :=
  params.any (fun p => p.extractor_type ≠ ExtractorType.None)

/-- Route-level and controller-level response configuration consulted by
the wrapper-need decision (`RouteInfo` / `ControllerConfig` fields). -/
structure RespConfig where
  response_headers : List (String × String)
  content_type : Option String
deriving DecidableEq, Repr

/-- The registration-side condition of `generate_route_registrations`
(src/generator/router.rs lines 26-35): the route is registered against the
`_wrapper` symbol iff some parameter needs extraction or response
headers/content-type are present at route or controller level. -/
def registration_targets_wrapper (params : List ParamInfo)
    (route controller : RespConfig) : Bool :=
  needs_wrapper params
  || !route.response_headers.isEmpty
  || route.content_type.isSome
  || !controller.response_headers.isEmpty
  || controller.content_type.isSome

/-- Modelled from the spec: the generation-side condition of the missing
controller-aware `generate_wrapper_functions` — "a synthesized adapter is
needed whenever any parameter resolves to a non-`None` extractor kind, or
whenever response headers/content-type are specified (route-level or
inherited from the controller)". -/
def wrapper_is_generated (params : List ParamInfo)
    (route controller : RespConfig) : Prop :=
  (∃ p ∈ params, p.extractor_type ≠ ExtractorType.None)
  ∨ route.response_headers ≠ []
  ∨ route.content_type ≠ none
  ∨ controller.response_headers ≠ []
  ∨ controller.content_type ≠ none

/-! ## Run-time context extraction inside a synthesized adapter
(src/generator/wrappers.rs lines 193-231) -/

/-- A raw HTTP header value; `toStr` models
`http::HeaderValue::to_str().ok()`, which is `none` when the bytes are not
valid visible text. -/
structure HeaderVal where
  toStr : Option String
deriving DecidableEq, Repr

/-- `name_str.replace('_', "-")`: header names are looked up in kebab case
(src/generator/wrappers.rs line 198). -/
def kebab (s : String) : String :=
  String.map (fun c => if c = '_' then '-' else c) s

/-- The value bound for a `HeaderParam` parameter:
`headers.get(name).and_then(|v| v.to_str().ok()).unwrap_or("").to_string()`
(src/generator/wrappers.rs lines 199-204). -/
def headerParamValue (headers : List (String × HeaderVal)) (param : String) : String :=
  (((lookupFirst (kebab param) headers).bind (fun v => v.toStr)).getD "")

/-- The value bound for a `CookieParam` parameter:
`cookies.get(name).map(|c| c.value().to_string()).unwrap_or_default()`
(src/generator/wrappers.rs lines 211-215). -/
def cookieParamValue (cookies : List (String × String)) (param : String) : String :=
  ((lookupFirst param cookies).getD "")

/-- The value bound for a `SessionParam` parameter:
`session.get::<T>(name).await.ok().flatten().unwrap_or_default()`
(src/generator/wrappers.rs lines 223-229).  `session.get` returns
`Result<Option<T>, Error>`, modelled as `Except String (Option V)`. -/
def sessionParamValue {V : Type} [Inhabited V]
    (session : String → Except String (Option V)) (param : String) : V :=
  (((session param).toOption).bind id).getD default

/-- The body of a synthesized adapter for a handler reading one header, one
cookie and one session value: it binds each context parameter with the
defaulting extraction above and then calls the original handler
unconditionally — a failed lookup never rejects the request. -/
def wrapperContextAdapter {V R : Type} [Inhabited V]
    (handler : String → String → V → R)
    (headers : List (String × HeaderVal)) (cookies : List (String × String))
    (session : String → Except String (Option V))
    (hName cName sName : String) : R :=
  handler (headerParamValue headers hName) (cookieParamValue cookies cName)
    (sessionParamValue session sName)

/-! ## Auxiliary observation functions used by the theorems -/

/-- The precedence group a wrapper binding belongs to: the `Path` tuple,
then `State`, then the shared context extractors, then the declared-order
tail. -/
def groupRank : Binding → Nat
  | .pathBinding _ => 0
  | .stateBinding _ => 1
  | .headerMapBinding => 2
  | .cookieJarBinding => 2
  | .sessionBinding => 2
  | _ => 3

/-- Whether a binding is the combined `Path` binding. -/
def Binding.isPathB : Binding → Bool
  | .pathBinding _ => true
  | _ => false

/-- Whether a binding is the shared `State` binding. -/
def Binding.isStateB : Binding → Bool
  | .stateBinding _ => true
  | _ => false

/-- Whether a binding is the shared `HeaderMap` binding. -/
def Binding.isHeaderMapB : Binding → Bool
  | .headerMapBinding => true
  | _ => false

/-- Whether a binding is the shared `CookieJar` binding. -/
def Binding.isCookieJarB : Binding → Bool
  | .cookieJarBinding => true
  | _ => false

/-- Whether a binding is the shared `Session` binding. -/
def Binding.isSessionB : Binding → Bool
  | .sessionBinding => true
  | _ => false

/-- A diagnostic with the rendered text of the (`HashMap`-iteration-order
dependent) multiple-body-extractors message erased; what remains is the
iteration-order independent part of `validate_extractors`' output. -/
def diagShape : ExtDiag → ExtDiag
  | .abortMultipleBody _ _ => .abortMultipleBody [] ""
  | d => d

/-- A route annotation's token text that has no path literal but does have a
`header("name", "value")` argument. -/
def headerOnlyAttr : String := "header (\"name\", \"value\")"

/-! # Theorems -/

/-- Folding `Binding.layerFn` from the right wraps the first list element
outermost: the observation order of the result is the list itself followed
by whatever already wrapped the base. -/
theorem observeOrder_foldr (l : List String) (base : RouterExpr) :
    observeOrder (l.foldr (fun mw r => RouterExpr.layerFn mw r) base)
      = l ++ observeOrder base := by
  induction l with
  | nil => rfl
  | cons m ms ih => simp [observeOrder, ih]

/-- C7: for middlewares m1..mn in declaration order, `apply_middlewares`
wraps the base router in reverse declaration order, so the layers observe a
request first-declared first (m1 outermost, mn innermost), and an empty
middleware list returns the router unchanged. -/
theorem apply_middlewares_order :
    (∀ (base : RouterExpr) (mws : List String),
      observeOrder (apply_middlewares base mws) = mws ++ observeOrder base)
    ∧ (∀ base : RouterExpr, apply_middlewares base [] = base)
    ∧ apply_middlewares (.base ["r"]) ["m1", "m2", "m3"]
        = .layerFn "m1" (.layerFn "m2" (.layerFn "m3" (.base ["r"]))) := by
  refine ⟨?_, fun base => rfl, by decide⟩
  intro base mws
  cases mws with
  | nil => rfl
  | cons m ms =>
    show observeOrder (((m :: ms).reverse).foldl (fun r mw => .layerFn mw r) base) = _
    rw [List.foldl_reverse, observeOrder_foldr]

/-- Looking up the key just inserted by `insertHeader` yields the inserted
value. -/
theorem lookupFirst_insertHeader_self (m : List (String × String)) (kv : String × String) :
    lookupFirst kv.1 (insertHeader m kv) = some kv.2 := by
  induction m with
  | nil => simp [insertHeader, lookupFirst]
  | cons hd rest ih =>
    obtain ⟨n, v⟩ := hd
    by_cases h : n = kv.1
    · simp [insertHeader, h, lookupFirst]
    · simp [insertHeader, h, lookupFirst, ih]

/-- `insertHeader` leaves the lookup of every other key unchanged. -/
theorem lookupFirst_insertHeader_ne (m : List (String × String)) (kv : String × String)
    (n : String) (h : n ≠ kv.1) :
    lookupFirst n (insertHeader m kv) = lookupFirst n m := by
  have hne : ¬ kv.1 = n := fun he => h he.symm
  induction m with
  | nil => simp [insertHeader, lookupFirst, hne]
  | cons hd rest ih =>
    obtain ⟨k, v⟩ := hd
    by_cases hk : k = kv.1
    · subst hk
      simp [insertHeader, lookupFirst, hne]
    · simp only [insertHeader, if_neg hk, lookupFirst]
      by_cases hkn : k = n <;> simp [hkn, ih]

/-- Inserting an emitted header list into a header map realizes the
last-write-wins discipline: the lookup afterwards is the list's last write
when there is one, otherwise the map's previous binding. -/
theorem lookupFirst_foldl_insertHeader (l : List (String × String)) :
    ∀ (m : List (String × String)) (n : String),
      lookupFirst n (l.foldl insertHeader m)
        = (lastWrite n l).elim (lookupFirst n m) some := by
  induction l with
  | nil => intro m n; simp [lastWrite]
  | cons kv l ih =>
    intro m n
    rw [List.foldl_cons, ih]
    show _ = (match lastWrite n l with
      | some w => some w
      | none => if kv.1 = n then some kv.2 else none).elim (lookupFirst n m) some
    cases hlw : lastWrite n l with
    | some w => simp
    | none =>
      by_cases hk : kv.1 = n
      · subst hk
        simp [lookupFirst_insertHeader_self]
      · simp [hk, lookupFirst_insertHeader_ne m kv n (fun he => hk he.symm)]

/-- The last write of an appended list is the right part's last write when
there is one, otherwise the left part's. -/
theorem lastWrite_append (n : String) (c r : List (String × String)) :
    lastWrite n (c ++ r) = (lastWrite n r).elim (lastWrite n c) some := by
  induction c with
  | nil => cases hlw : lastWrite n r <;> simp [lastWrite, hlw]
  | cons kv c ih =>
    show (match lastWrite n (c ++ r) with
      | some w => some w
      | none => if kv.1 = n then some kv.2 else none) = _
    rw [ih]
    cases hr : lastWrite n r with
    | some w => simp
    | none =>
      cases hc : lastWrite n c with
      | some w => simp [lastWrite, hc]
      | none => simp [lastWrite, hc]

/-- C1: for every controller and route, the header map the synthesized
adapter emits is the merge that starts from the controller-level
response-header list and then applies the route-level entries, overwriting
by header name with the last write winning (for every name, the resulting
binding is the route list's last write when present, else the controller
list's); the emitted content-type is the route-level one when the route
specifies it and the controller-level one otherwise; and in particular
controller headers {A:1, B:2} with route headers {A:3, C:4} yield exactly
{A:3, B:2, C:4}. -/
theorem merged_response_headers_correct :
    (∀ (controller route : List (String × String)) (n : String),
      lookupFirst n (headerMapOfList (merged_response_headers controller route))
        = (lastWrite n route).elim (lastWrite n controller) some)
    ∧ (∀ (controllerCt : Option String) (ct : String),
        emittedContentType controllerCt (some ct) = some ct)
    ∧ (∀ controllerCt : Option String, emittedContentType controllerCt none = controllerCt)
    ∧ headerMapOfList
        (merged_response_headers [("A", "1"), ("B", "2")] [("A", "3"), ("C", "4")])
        = [("A", "3"), ("B", "2"), ("C", "4")] := by
  refine ⟨?_, fun cCt ct => rfl, fun cCt => rfl, by decide⟩
  intro controller route n
  rw [headerMapOfList, merged_response_headers, lookupFirst_foldl_insertHeader,
    lastWrite_append]
  cases h : lastWrite n route with
  | some w => simp
  | none => cases lastWrite n controller <;> simp [lookupFirst]

/-- `validate_extractors` emits the fatal abort exactly when the map holds
two or more body-consuming entries. -/
theorem any_isAbort_validate_extractors (ex : List (String × ExtractorType)) (m : String) :
    (validate_extractors ex m).any ExtDiag.isAbort
      = decide (2 ≤ (ex.filter (fun p => p.2.is_body_extractor)).length) := by
  unfold validate_extractors
  by_cases h : 1 < (ex.filter (fun p => p.2.is_body_extractor)).length
  · simp only [if_pos h]
    have h2 : 2 ≤ (ex.filter (fun p => p.2.is_body_extractor)).length := h
    simp [ExtDiag.isAbort, h2]
  · simp only [if_neg h]
    have h2 : ¬ 2 ≤ (ex.filter (fun p => p.2.is_body_extractor)).length := h
    rw [List.any_append]
    have hwarn : (if (m = "get" ∨ m = "head" ∨ m = "delete")
          ∧ ex.filter (fun p => p.2.is_body_extractor) ≠ [] then
        match ex.filter (fun p => p.2.is_body_extractor) with
        | [] => []
        | (n, e) :: _ => [ExtDiag.warnBodyOnMethod n e m]
      else []).any ExtDiag.isAbort = false := by
      split
      · cases hb : ex.filter (fun p => p.2.is_body_extractor) with
        | nil => rfl
        | cons a tl =>
          obtain ⟨n, e⟩ := a
          simp [ExtDiag.isAbort]
      · rfl
    have hfeat : (ex.filterMap (fun p =>
        (p.2.requires_feature).map
          (fun f => ExtDiag.warnFeatureRequired p.1 p.2 f))).any ExtDiag.isAbort
          = false := by
      rw [List.any_eq_false]
      intro d hd
      rw [List.mem_filterMap] at hd
      obtain ⟨p, _, hp⟩ := hd
      rw [Option.map_eq_some'] at hp
      obtain ⟨f, _, hf⟩ := hp
      rw [← hf]
      simp [ExtDiag.isAbort]
    rw [hwarn, hfeat]
    simp [h2]

/-- C5: a map with two or more body-consuming entries always raises the
fatal multiple-body-extractors abort, regardless of the map's iteration
order, and the abort names all offending entries; a map with at most one
body-consuming entry never raises it. -/
theorem validate_extractors_multi_body (ex ex' : List (String × ExtractorType))
    (m : String) (hperm : ex.Perm ex') :
    ((validate_extractors ex m).any ExtDiag.isAbort
      = decide (2 ≤ (ex.filter (fun p => p.2.is_body_extractor)).length))
    ∧ ((validate_extractors ex m).any ExtDiag.isAbort
      = (validate_extractors ex' m).any ExtDiag.isAbort)
    ∧ (∀ off msg, ExtDiag.abortMultipleBody off msg ∈ validate_extractors ex m →
        off = ex.filter (fun p => p.2.is_body_extractor) ∧ msg = multiBodyMsg off) := by
  refine ⟨any_isAbort_validate_extractors ex m, ?_, ?_⟩
  · rw [any_isAbort_validate_extractors, any_isAbort_validate_extractors,
      (hperm.filter _).length_eq]
  · intro off msg hmem
    unfold validate_extractors at hmem
    by_cases h : 1 < (ex.filter (fun p => p.2.is_body_extractor)).length
    · rw [if_pos h, List.mem_singleton] at hmem
      obtain ⟨h1, h2⟩ := ExtDiag.abortMultipleBody.inj hmem.symm
      exact ⟨h1.symm, by rw [← h2, h1]⟩
    · rw [if_neg h, List.mem_append] at hmem
      rcases hmem with hmem | hmem
      · exfalso
        revert hmem
        split
        · cases hb : ex.filter (fun p => p.2.is_body_extractor) with
          | nil => simp
          | cons a tl =>
            obtain ⟨n, e⟩ := a
            simp
        · simp
      · exfalso
        rw [List.mem_filterMap] at hmem
        obtain ⟨p, _, hp⟩ := hmem
        rw [Option.map_eq_some'] at hp
        obtain ⟨f, _, hf⟩ := hp
        exact ExtDiag.noConfusion hf

/-- Witness for C5 at the concrete map {x: Json, y: Form} and its reversed
iteration order. -/
theorem validate_extractors_multi_body_witness :
    (validate_extractors [("x", ExtractorType.Json), ("y", ExtractorType.Form)] "post").any
        ExtDiag.isAbort
      = decide (2 ≤ ([("x", ExtractorType.Json), ("y", ExtractorType.Form)].filter
          (fun p => p.2.is_body_extractor)).length) :=
  (validate_extractors_multi_body
    [("x", ExtractorType.Json), ("y", ExtractorType.Form)]
    [("y", ExtractorType.Form), ("x", ExtractorType.Json)] "post" (by decide)).1

/-- C4: route registration targets the synthesized `_wrapper` symbol
exactly when a wrapper is generated, namely iff some declared parameter
resolves to a non-`None` extractor kind, or response headers or a
content-type are specified at route level or inherited from the controller
level; so the registration-side set of handlers equals the generation-side
set. -/
theorem registration_targets_wrapper_iff (params : List ParamInfo)
    (route controller : RespConfig) :
    registration_targets_wrapper params route controller = true
      ↔ wrapper_is_generated params route controller := by
  simp only [registration_targets_wrapper, needs_wrapper, wrapper_is_generated,
    Bool.or_eq_true, List.any_eq_true, Bool.not_eq_true', List.isEmpty_eq_false,
    Option.isSome_iff_ne_none, decide_eq_true_eq, ne_eq]
  aesop

/-- Association-list lookup is invariant under permutation of the entries
when the keys are distinct (as they are for a `HashMap`'s iteration
order). -/
theorem lookupFirst_perm {β : Type} {l l' : List (String × β)}
    (h : l.Perm l') (hnd : (l.map Prod.fst).Nodup) (n : String) :
    lookupFirst n l = lookupFirst n l' := by
  induction h with
  | nil => rfl
  | cons x h ih =>
    rw [List.map_cons, List.nodup_cons] at hnd
    show (if x.1 = n then some x.2 else lookupFirst n _)
      = (if x.1 = n then some x.2 else lookupFirst n _)
    rw [ih hnd.2]
  | swap x y l =>
    rw [List.map_cons, List.map_cons, List.nodup_cons, List.mem_cons] at hnd
    have hxy : ¬ y.1 = x.1 := fun he => hnd.1 (Or.inl he)
    show (if y.1 = n then some y.2 else if x.1 = n then some x.2 else lookupFirst n l)
      = (if x.1 = n then some x.2 else if y.1 = n then some y.2 else lookupFirst n l)
    by_cases hy : y.1 = n <;> by_cases hx : x.1 = n <;> simp [hy, hx]
    exact absurd (hy.trans hx.symm) hxy
  | trans h1 h2 ih1 ih2 =>
    rw [ih1 hnd, ih2 (((h1.map Prod.fst).nodup_iff).mp hnd)]

/-- Every binding contributed by the declared-order tail loop belongs to
the last precedence group. -/
theorem groupRank_tailBinding (p : ParamInfo) (b : Binding)
    (h : tailBinding p = some b) : groupRank b = 3 := by
  rcases p with ⟨nm, ty, k⟩
  cases k <;> simp only [tailBinding] at h <;>
    first
      | exact Option.noConfusion h
      | (obtain rfl := Option.some.inj h; rfl)

/-- Members of the `Path` chunk are the combined `Path` binding. -/
theorem mem_pathChunk (params : List ParamInfo) {b : Binding} (hb : b ∈ pathChunk params) :
    ∃ ns, b = Binding.pathBinding ns := by
  simp only [pathChunk] at hb
  split at hb
  · exact absurd hb (List.not_mem_nil b)
  · rw [List.mem_singleton] at hb
    exact ⟨_, hb⟩

/-- Members of the `State` chunk are the shared `State` binding. -/
theorem mem_stateChunk (params : List ParamInfo) {b : Binding} (hb : b ∈ stateChunk params) :
    ∃ ty, b = Binding.stateBinding ty := by
  unfold stateChunk at hb
  split at hb
  · rw [List.mem_singleton] at hb
    exact ⟨_, hb⟩
  · exact absurd hb (List.not_mem_nil b)

/-- Members of the header chunk are the shared `HeaderMap` binding. -/
theorem mem_headerChunk (params : List ParamInfo) {b : Binding} (hb : b ∈ headerChunk params) :
    b = Binding.headerMapBinding := by
  unfold headerChunk at hb
  split at hb
  · rwa [List.mem_singleton] at hb
  · exact absurd hb (List.not_mem_nil b)

/-- Members of the cookie chunk are the shared `CookieJar` binding. -/
theorem mem_cookieChunk (params : List ParamInfo) {b : Binding} (hb : b ∈ cookieChunk params) :
    b = Binding.cookieJarBinding := by
  unfold cookieChunk at hb
  split at hb
  · rwa [List.mem_singleton] at hb
  · exact absurd hb (List.not_mem_nil b)

/-- Members of the session chunk are the shared `Session` binding. -/
theorem mem_sessionChunk (params : List ParamInfo) {b : Binding}
    (hb : b ∈ sessionChunk params) : b = Binding.sessionBinding := by
  unfold sessionChunk at hb
  split at hb
  · rwa [List.mem_singleton] at hb
  · exact absurd hb (List.not_mem_nil b)

/-- Each shared chunk holds at most one binding. -/
theorem chunk_len_pathChunk (params : List ParamInfo) : (pathChunk params).length ≤ 1 := by
  simp only [pathChunk]
  split <;> simp

/-- The `State` chunk holds at most one binding. -/
theorem chunk_len_stateChunk (params : List ParamInfo) : (stateChunk params).length ≤ 1 := by
  unfold stateChunk
  split <;> simp

/-- The header chunk holds at most one binding. -/
theorem chunk_len_headerChunk (params : List ParamInfo) :
    (headerChunk params).length ≤ 1 := by
  unfold headerChunk
  split <;> simp

/-- The cookie chunk holds at most one binding. -/
theorem chunk_len_cookieChunk (params : List ParamInfo) :
    (cookieChunk params).length ≤ 1 := by
  unfold cookieChunk
  split <;> simp

/-- The session chunk holds at most one binding. -/
theorem chunk_len_sessionChunk (params : List ParamInfo) :
    (sessionChunk params).length ≤ 1 := by
  unfold sessionChunk
  split <;> simp

/-- Rank of the `Path` chunk's members. -/
theorem rank_pathChunk (params : List ParamInfo) :
    ∀ b ∈ pathChunk params, groupRank b = 0 := by
  intro b hb
  obtain ⟨ns, rfl⟩ := mem_pathChunk params hb
  rfl

/-- Rank of the `State` chunk's members. -/
theorem rank_stateChunk (params : List ParamInfo) :
    ∀ b ∈ stateChunk params, groupRank b = 1 := by
  intro b hb
  obtain ⟨ty, rfl⟩ := mem_stateChunk params hb
  rfl

/-- Rank of the header chunk's members. -/
theorem rank_headerChunk (params : List ParamInfo) :
    ∀ b ∈ headerChunk params, groupRank b = 2 := by
  intro b hb
  rw [mem_headerChunk params hb]
  rfl

/-- Rank of the cookie chunk's members. -/
theorem rank_cookieChunk (params : List ParamInfo) :
    ∀ b ∈ cookieChunk params, groupRank b = 2 := by
  intro b hb
  rw [mem_cookieChunk params hb]
  rfl

/-- Rank of the session chunk's members. -/
theorem rank_sessionChunk (params : List ParamInfo) :
    ∀ b ∈ sessionChunk params, groupRank b = 2 := by
  intro b hb
  rw [mem_sessionChunk params hb]
  rfl

/-- Rank of the declared-order tail's members. -/
theorem rank_tailChunk (params : List ParamInfo) :
    ∀ b ∈ params.filterMap tailBinding, groupRank b = 3 := by
  intro b hb
  rw [List.mem_filterMap] at hb
  obtain ⟨p, _, hp⟩ := hb
  exact groupRank_tailBinding p b hp

/-- Tail bindings are never one of the shared front bindings. -/
theorem tailBinding_not_shared (p : ParamInfo) (b : Binding)
    (h : tailBinding p = some b) :
    Binding.isPathB b = false ∧ Binding.isStateB b = false
    ∧ Binding.isHeaderMapB b = false ∧ Binding.isCookieJarB b = false
    ∧ Binding.isSessionB b = false := by
  rcases p with ⟨nm, ty, k⟩
  cases k <;> simp only [tailBinding] at h <;>
    first
      | exact Option.noConfusion h
      | (obtain rfl := Option.some.inj h; exact ⟨rfl, rfl, rfl, rfl, rfl⟩)

/-- A list none of whose members satisfy a predicate has `countP` zero. -/
theorem countP_zero_of (pred : Binding → Bool) (l : List Binding)
    (h : ∀ b ∈ l, pred b = false) : l.countP pred = 0 := by
  rw [List.countP_eq_zero]
  intro b hb
  rw [h b hb]
  exact Bool.false_ne_true

/-- Gluing step for the precedence proof: appending a constant-rank chunk
of rank at least the running bound keeps the binding list rank-sorted. -/
theorem pairwise_rank_glue {l c : List Binding} {k r : Nat} (hkr : k ≤ r)
    (hl : l.Pairwise (fun a b => groupRank a ≤ groupRank b))
    (hlb : ∀ b ∈ l, groupRank b ≤ k)
    (hc : ∀ b ∈ c, groupRank b = r) :
    ((l ++ c).Pairwise (fun a b => groupRank a ≤ groupRank b))
    ∧ (∀ b ∈ l ++ c, groupRank b ≤ r) := by
  constructor
  · refine List.pairwise_append.2 ⟨hl, ?_, ?_⟩
    · exact List.pairwise_of_forall_mem_list
        (fun a ha b hb => by rw [hc a ha, hc b hb])
    · intro a ha b hb
      rw [hc b hb]
      exact le_trans (hlb a ha) hkr
  · intro b hb
    rcases List.mem_append.1 hb with h | h
    · exact le_trans (hlb b h) hkr
    · exact le_of_eq (hc b h)

/-- C2 counterexample: for the handler `(a, b)` with extractor map
`{b: Json}`, the body-consuming binding comes after the plain `None`
binding, and swapping the two non-`Path` parameter declarations swaps the
two bindings — contradicting the claimed kind-only precedence
(body-consuming before plain `None`) and the claimed independence from
non-`Path` declaration order. -/
theorem wrapperParams_declared_order_counterexample :
    wrapperParams (analyze_params [("a", "A"), ("b", "B")] [("b", ExtractorType.Json)])
      = [.plainBinding "a", .jsonBinding "b"]
    ∧ wrapperParams (analyze_params [("b", "B"), ("a", "A")] [("b", ExtractorType.Json)])
      = [.jsonBinding "b", .plainBinding "a"] := by
  constructor <;> rfl

/-- C2 amended: the binding order is independent of the extractor-map entry
order (kinds are resolved by parameter name); the bindings are sorted by
the precedence groups `Path` tuple, then `State`, then the shared
header/cookie/session context group, then the remaining parameters
(`Query`, body-consuming and plain `None` kinds) in the handler's declared
parameter order; and each combined/shared binding occurs at most once.  The
tail is ordered by parameter declaration, not by kind. -/
theorem wrapperParams_precedence :
    (∀ (sig : List (String × String)) (ex ex' : List (String × ExtractorType)),
      ex.Perm ex' → (ex.map Prod.fst).Nodup →
      wrapperParams (analyze_params sig ex) = wrapperParams (analyze_params sig ex'))
    ∧ (∀ params : List ParamInfo,
        (wrapperParams params).Pairwise (fun a b => groupRank a ≤ groupRank b))
    ∧ (∀ params : List ParamInfo,
        (wrapperParams params).countP Binding.isPathB ≤ 1
        ∧ (wrapperParams params).countP Binding.isStateB ≤ 1
        ∧ (wrapperParams params).countP Binding.isHeaderMapB ≤ 1
        ∧ (wrapperParams params).countP Binding.isCookieJarB ≤ 1
        ∧ (wrapperParams params).countP Binding.isSessionB ≤ 1) := by
  refine ⟨?_, ?_, ?_⟩
  · intro sig ex ex' hperm hnd
    have hlk : ∀ p : String × String, lookupFirst p.1 ex = lookupFirst p.1 ex' :=
      fun p => lookupFirst_perm hperm hnd p.1
    unfold analyze_params
    rw [List.map_congr_left (fun p _ => by rw [hlk p])]
  · intro params
    have s0 := pairwise_rank_glue (k := 0) (r := 0) (le_refl 0)
      List.Pairwise.nil (fun b hb => absurd hb (List.not_mem_nil b))
      (rank_pathChunk params)
    rw [List.nil_append] at s0
    have s1 := pairwise_rank_glue (by omega) s0.1 s0.2 (rank_stateChunk params)
    have s2 := pairwise_rank_glue (by omega) s1.1 s1.2 (rank_headerChunk params)
    have s3 := pairwise_rank_glue (by omega) s2.1 s2.2 (rank_cookieChunk params)
    have s4 := pairwise_rank_glue (by omega) s3.1 s3.2 (rank_sessionChunk params)
    have s5 := pairwise_rank_glue (by omega) s4.1 s4.2 (rank_tailChunk params)
    have hassoc : wrapperParams params
        = pathChunk params ++ stateChunk params ++ headerChunk params
          ++ cookieChunk params ++ sessionChunk params
          ++ params.filterMap tailBinding := rfl
    rw [hassoc]
    simpa [List.append_assoc] using s5.1
  · intro params
    have zt : ∀ pred : Binding → Bool,
        (∀ p b, tailBinding p = some b → pred b = false) →
        (params.filterMap tailBinding).countP pred = 0 := by
      intro pred hpred
      refine countP_zero_of pred _ (fun b hb => ?_)
      rw [List.mem_filterMap] at hb
      obtain ⟨p, _, hp⟩ := hb
      exact hpred p b hp
    refine ⟨?_, ?_, ?_, ?_, ?_⟩ <;> simp only [wrapperParams, List.countP_append]
    · have z1 : (stateChunk params).countP Binding.isPathB = 0 :=
        countP_zero_of _ _ (fun b hb => by
          obtain ⟨ty, rfl⟩ := mem_stateChunk params hb; rfl)
      have z2 : (headerChunk params).countP Binding.isPathB = 0 :=
        countP_zero_of _ _ (fun b hb => by rw [mem_headerChunk params hb]; rfl)
      have z3 : (cookieChunk params).countP Binding.isPathB = 0 :=
        countP_zero_of _ _ (fun b hb => by rw [mem_cookieChunk params hb]; rfl)
      have z4 : (sessionChunk params).countP Binding.isPathB = 0 :=
        countP_zero_of _ _ (fun b hb => by rw [mem_sessionChunk params hb]; rfl)
      have z5 : (params.filterMap tailBinding).countP Binding.isPathB = 0 :=
        zt _ (fun p b hp => (tailBinding_not_shared p b hp).1)
      have c1 : (pathChunk params).countP Binding.isPathB ≤ 1 :=
        le_trans (List.countP_le_length _) (chunk_len_pathChunk params)
      omega
    · have z1 : (pathChunk params).countP Binding.isStateB = 0 :=
        countP_zero_of _ _ (fun b hb => by
          obtain ⟨ns, rfl⟩ := mem_pathChunk params hb; rfl)
      have z2 : (headerChunk params).countP Binding.isStateB = 0 :=
        countP_zero_of _ _ (fun b hb => by rw [mem_headerChunk params hb]; rfl)
      have z3 : (cookieChunk params).countP Binding.isStateB = 0 :=
        countP_zero_of _ _ (fun b hb => by rw [mem_cookieChunk params hb]; rfl)
      have z4 : (sessionChunk params).countP Binding.isStateB = 0 :=
        countP_zero_of _ _ (fun b hb => by rw [mem_sessionChunk params hb]; rfl)
      have z5 : (params.filterMap tailBinding).countP Binding.isStateB = 0 :=
        zt _ (fun p b hp => (tailBinding_not_shared p b hp).2.1)
      have c1 : (stateChunk params).countP Binding.isStateB ≤ 1 :=
        le_trans (List.countP_le_length _) (chunk_len_stateChunk params)
      omega
    · have z1 : (pathChunk params).countP Binding.isHeaderMapB = 0 :=
        countP_zero_of _ _ (fun b hb => by
          obtain ⟨ns, rfl⟩ := mem_pathChunk params hb; rfl)
      have z2 : (stateChunk params).countP Binding.isHeaderMapB = 0 :=
        countP_zero_of _ _ (fun b hb => by
          obtain ⟨ty, rfl⟩ := mem_stateChunk params hb; rfl)
      have z3 : (cookieChunk params).countP Binding.isHeaderMapB = 0 :=
        countP_zero_of _ _ (fun b hb => by rw [mem_cookieChunk params hb]; rfl)
      have z4 : (sessionChunk params).countP Binding.isHeaderMapB = 0 :=
        countP_zero_of _ _ (fun b hb => by rw [mem_sessionChunk params hb]; rfl)
      have z5 : (params.filterMap tailBinding).countP Binding.isHeaderMapB = 0 :=
        zt _ (fun p b hp => (tailBinding_not_shared p b hp).2.2.1)
      have c1 : (headerChunk params).countP Binding.isHeaderMapB ≤ 1 :=
        le_trans (List.countP_le_length _) (chunk_len_headerChunk params)
      omega
    · have z1 : (pathChunk params).countP Binding.isCookieJarB = 0 :=
        countP_zero_of _ _ (fun b hb => by
          obtain ⟨ns, rfl⟩ := mem_pathChunk params hb; rfl)
      have z2 : (stateChunk params).countP Binding.isCookieJarB = 0 :=
        countP_zero_of _ _ (fun b hb => by
          obtain ⟨ty, rfl⟩ := mem_stateChunk params hb; rfl)
      have z3 : (headerChunk params).countP Binding.isCookieJarB = 0 :=
        countP_zero_of _ _ (fun b hb => by rw [mem_headerChunk params hb]; rfl)
      have z4 : (sessionChunk params).countP Binding.isCookieJarB = 0 :=
        countP_zero_of _ _ (fun b hb => by rw [mem_sessionChunk params hb]; rfl)
      have z5 : (params.filterMap tailBinding).countP Binding.isCookieJarB = 0 :=
        zt _ (fun p b hp => (tailBinding_not_shared p b hp).2.2.2.1)
      have c1 : (cookieChunk params).countP Binding.isCookieJarB ≤ 1 :=
        le_trans (List.countP_le_length _) (chunk_len_cookieChunk params)
      omega
    · have z1 : (pathChunk params).countP Binding.isSessionB = 0 :=
        countP_zero_of _ _ (fun b hb => by
          obtain ⟨ns, rfl⟩ := mem_pathChunk params hb; rfl)
      have z2 : (stateChunk params).countP Binding.isSessionB = 0 :=
        countP_zero_of _ _ (fun b hb => by
          obtain ⟨ty, rfl⟩ := mem_stateChunk params hb; rfl)
      have z3 : (headerChunk params).countP Binding.isSessionB = 0 :=
        countP_zero_of _ _ (fun b hb => by rw [mem_headerChunk params hb]; rfl)
      have z4 : (cookieChunk params).countP Binding.isSessionB = 0 :=
        countP_zero_of _ _ (fun b hb => by rw [mem_cookieChunk params hb]; rfl)
      have z5 : (params.filterMap tailBinding).countP Binding.isSessionB = 0 :=
        zt _ (fun p b hp => (tailBinding_not_shared p b hp).2.2.2.2)
      have c1 : (sessionChunk params).countP Binding.isSessionB ≤ 1 :=
        le_trans (List.countP_le_length _) (chunk_len_sessionChunk params)
      omega

/-- Witness for C2 amended, at a handler `(id, q)` with extractor map
`{id: Path, q: Query}` and its reversed iteration order. -/
theorem wrapperParams_precedence_witness :
    wrapperParams (analyze_params [("id", "u32"), ("q", "Q")]
        [("id", ExtractorType.Path), ("q", ExtractorType.Query)])
      = wrapperParams (analyze_params [("id", "u32"), ("q", "Q")]
        [("q", ExtractorType.Query), ("id", ExtractorType.Path)]) :=
  wrapperParams_precedence.1 [("id", "u32"), ("q", "Q")]
    [("id", ExtractorType.Path), ("q", ExtractorType.Query)]
    [("q", ExtractorType.Query), ("id", ExtractorType.Path)]
    (by decide) (by decide)

/-- Every non-`Path` parameter contributes exactly one call argument, and
that argument is matched to the parameter by name. -/
theorem tailArg_paramName (p : ParamInfo) :
    (p.extractor_type = .Path → tailArg p = none)
    ∧ (p.extractor_type ≠ .Path → ∃ a, tailArg p = some a ∧ a.paramName = p.name) := by
  rcases p with ⟨nm, ty, k⟩
  cases k <;> simp [tailArg, CallArg.paramName]

/-- The names of the tail call arguments are the non-`Path` parameters'
names in declared order. -/
theorem tailArgs_names (params : List ParamInfo) :
    (params.filterMap tailArg).map CallArg.paramName
      = (params.filter (fun p => ¬ p.extractor_type = .Path)).map ParamInfo.name := by
  induction params with
  | nil => rfl
  | cons p ps ih =>
    by_cases hp : p.extractor_type = .Path
    · rw [List.filterMap_cons, (tailArg_paramName p).1 hp, List.filter_cons]
      simp only [hp, not_true_eq_false, decide_False, if_false]
      exact ih
    · obtain ⟨a, ha, hname⟩ := (tailArg_paramName p).2 hp
      rw [List.filterMap_cons, ha, List.filter_cons]
      simp only [hp, not_false_eq_true, decide_True, if_true, List.map_cons, hname, ih]

/-- C6 counterexample: for the handler declared `(q, id)` with extractor
map `{q: Query, id: Path}`, the synthesized adapter calls the handler with
the `Path` argument hoisted to the front — `(id, q)` — not in the handler's
declared parameter order `(q, id)`. -/
theorem callArgs_declared_order_counterexample :
    ((callArgs (analyze_params [("q", "Q"), ("id", "u32")]
        [("q", ExtractorType.Query), ("id", ExtractorType.Path)])).map CallArg.paramName
      = ["id", "q"])
    ∧ ((analyze_params [("q", "Q"), ("id", "u32")]
        [("q", ExtractorType.Query), ("id", ExtractorType.Path)]).map ParamInfo.name
      = ["q", "id"]) := by
  constructor <;> rfl

/-- C6 amended: the synthesized adapter calls the original handler with the
`Path` parameters' values first (in declared order among themselves),
followed by every other parameter's value in declared order, each argument
matched to its parameter by name; the call order equals the handler's
declared parameter order precisely on handlers whose `Path` parameters all
precede the non-`Path` ones — not in general. -/
theorem callArgs_order (params : List ParamInfo) :
    ((callArgs params).map CallArg.paramName
      = (params.filter (fun p => p.extractor_type = .Path)).map ParamInfo.name
        ++ (params.filter (fun p => ¬ p.extractor_type = .Path)).map ParamInfo.name)
    ∧ ((params.dropWhile (fun p => p.extractor_type = .Path)).all
          (fun p => ¬ p.extractor_type = .Path) = true →
        (callArgs params).map CallArg.paramName = params.map ParamInfo.name) := by
  have hmain : (callArgs params).map CallArg.paramName
      = (params.filter (fun p => p.extractor_type = .Path)).map ParamInfo.name
        ++ (params.filter (fun p => ¬ p.extractor_type = .Path)).map ParamInfo.name := by
    rw [callArgs, List.map_append, tailArgs_names, List.map_map]
    rfl
  refine ⟨hmain, fun hpre => ?_⟩
  rw [hmain]
  have hsplit : params.takeWhile (fun p => p.extractor_type = .Path)
      ++ params.dropWhile (fun p => p.extractor_type = .Path) = params :=
    List.takeWhile_append_dropWhile _ _
  have htakemem : ∀ a ∈ params.takeWhile (fun p => p.extractor_type = .Path),
      a.extractor_type = .Path := by
    intro a ha
    have := List.mem_takeWhile_imp ha
    simpa using this
  have hdropmem : ∀ a ∈ params.dropWhile (fun p => p.extractor_type = .Path),
      ¬ a.extractor_type = .Path := by
    intro a ha
    have := List.all_eq_true.1 hpre a ha
    simpa using this
  have htake : params.filter (fun p => p.extractor_type = .Path)
      = params.takeWhile (fun p => p.extractor_type = .Path) := by
    conv_lhs => rw [← hsplit]
    rw [List.filter_append,
      List.filter_eq_self.2 (fun a ha => by simpa using htakemem a ha),
      List.filter_eq_nil_iff.2 (fun a ha => by simpa using hdropmem a ha),
      List.append_nil]
  have hdrop : params.filter (fun p => ¬ p.extractor_type = .Path)
      = params.dropWhile (fun p => p.extractor_type = .Path) := by
    conv_lhs => rw [← hsplit]
    rw [List.filter_append,
      List.filter_eq_nil_iff.2 (fun a ha => by simpa using htakemem a ha),
      List.nil_append,
      List.filter_eq_self.2 (fun a ha => by simpa using hdropmem a ha)]
  rw [htake, hdrop, ← List.map_append, hsplit]

/-- Witness for C6 amended, at a handler whose `Path` parameter precedes
the others. -/
theorem callArgs_order_witness :
    (callArgs (analyze_params [("id", "u32"), ("q", "Q")]
        [("id", ExtractorType.Path), ("q", ExtractorType.Query)])).map CallArg.paramName
      = (analyze_params [("id", "u32"), ("q", "Q")]
        [("id", ExtractorType.Path), ("q", ExtractorType.Query)]).map ParamInfo.name :=
  (callArgs_order (analyze_params [("id", "u32"), ("q", "Q")]
    [("id", ExtractorType.Path), ("q", ExtractorType.Query)])).2 (by decide)

/-- C3 counterexample: for the path `/x/{a}` and the extractor map
`{a: Path, b: Path}` — which is not exactly the placeholder set, since `b`
is an extra `Path` entry — validation accepts the route (no fatal error)
and the extra entry draws only an advisory warning, contradicting both the
claimed "exactly" iff and the claimed fatal rejection of extra `Path`
entries. -/
theorem validate_path_parameters_counterexample :
    acceptsPathParams "/x/{a}" [("a", ExtractorType.Path), ("b", ExtractorType.Path)] = true
    ∧ ("b" ∉ pathPlaceholders "/x/{a}")
    ∧ (("b", ExtractorType.Path) ∈ [("a", ExtractorType.Path), ("b", ExtractorType.Path)])
    ∧ validate_path_parameters "/x/{a}" [("a", ExtractorType.Path), ("b", ExtractorType.Path)]
        = [.warnNotInPath "b" "/x/{a}"] := by
  refine ⟨by decide, by decide, by decide, by decide⟩

/-- C3 amended: validation accepts a route (emits no fatal error) iff every
placeholder of its path has a `Path`-kinded extractor-map entry; a
placeholder with no entry raises a fatal error naming it, as does a
placeholder whose entry has a different kind; but an extra `Path` entry
whose name is not a placeholder draws an advisory warning naming it, not a
fatal error. -/
theorem validate_path_parameters_characterization (path : String)
    (ex : List (String × ExtractorType)) :
    (acceptsPathParams path ex = true
      ↔ ∀ p ∈ pathPlaceholders path, lookupFirst p ex = some ExtractorType.Path)
    ∧ (∀ p ∈ pathPlaceholders path, lookupFirst p ex = none →
        PathDiag.errMissing p path ∈ validate_path_parameters path ex)
    ∧ (∀ p k, p ∈ pathPlaceholders path → lookupFirst p ex = some k →
        k ≠ ExtractorType.Path →
        PathDiag.errWrongKind p path k ∈ validate_path_parameters path ex)
    ∧ (∀ n, (n, ExtractorType.Path) ∈ ex → n ∉ pathPlaceholders path →
        PathDiag.warnNotInPath n path ∈ validate_path_parameters path ex) := by
  have hmemErr : ∀ (p : String) (d : PathDiag), p ∈ pathPlaceholders path →
      (match lookupFirst p ex with
        | some ExtractorType.Path => none
        | some other => some (PathDiag.errWrongKind p path other)
        | none => some (PathDiag.errMissing p path)) = some d →
      d ∈ validate_path_parameters path ex := by
    intro p d hp hf
    unfold validate_path_parameters
    exact List.mem_append.2 (Or.inl (List.mem_filterMap.2 ⟨p, hp, hf⟩))
  refine ⟨?_, ?_, ?_, ?_⟩
  · constructor
    · intro hacc p hp
      unfold acceptsPathParams at hacc
      rw [List.all_eq_true] at hacc
      cases hl : lookupFirst p ex with
      | none =>
        have hmem := hmemErr p (PathDiag.errMissing p path) hp (by rw [hl])
        have := hacc _ hmem
        simp [PathDiag.isError] at this
      | some k =>
        cases k <;> try rfl
        all_goals {
          have hmem := hmemErr p _ hp (by rw [hl])
          have := hacc _ hmem
          simp [PathDiag.isError] at this
        }
    · intro h
      unfold acceptsPathParams validate_path_parameters
      rw [List.all_append, Bool.and_eq_true]
      constructor
      · rw [List.all_eq_true]
        intro d hd
        rw [List.mem_filterMap] at hd
        obtain ⟨p, hp, hf⟩ := hd
        rw [h p hp] at hf
        exact Option.noConfusion hf
      · rw [List.all_eq_true]
        intro d hd
        rw [List.mem_filterMap] at hd
        obtain ⟨e, _, hg⟩ := hd
        by_cases hmem : e.1 ∈ pathPlaceholders path
        · rw [if_pos hmem] at hg
          exact Option.noConfusion hg
        · rw [if_neg hmem] at hg
          obtain rfl := Option.some.inj hg
          rfl
  · intro p hp hl
    exact hmemErr p _ hp (by rw [hl])
  · intro p k hp hl hk
    refine hmemErr p _ hp ?_
    rw [hl]
    cases k <;> first | exact absurd rfl hk | rfl
  · intro n hmem hnp
    unfold validate_path_parameters
    refine List.mem_append.2 (Or.inr (List.mem_filterMap.2
      ⟨(n, ExtractorType.Path), List.mem_filter.2 ⟨hmem, by simp⟩, ?_⟩))
    rw [if_neg hnp]

/-- Witness for C3 amended at the path `/u/{id}` with map `{id: Path}`. -/
theorem validate_path_parameters_characterization_witness :
    acceptsPathParams "/u/{id}" [("id", ExtractorType.Path)] = true :=
  (validate_path_parameters_characterization "/u/{id}"
    [("id", ExtractorType.Path)]).1.mpr (by decide)

/-- C8: inside a synthesized adapter, a failed context lookup degrades to
the empty/default value — a `HeaderParam` whose header is absent or has no
valid text, a `CookieParam` whose cookie is absent, and a `SessionParam`
whose load errors or finds nothing all bind the parameter to the
empty/default value — and the adapter still calls the original handler
(the request proceeds instead of being rejected), as the fully-failing
context shows. -/
theorem context_lookup_defaults :
    (∀ (headers : List (String × HeaderVal)) (name : String),
      lookupFirst (kebab name) headers = none → headerParamValue headers name = "")
    ∧ (∀ (headers : List (String × HeaderVal)) (name : String) (v : HeaderVal),
        lookupFirst (kebab name) headers = some v → v.toStr = none →
        headerParamValue headers name = "")
    ∧ (∀ (cookies : List (String × String)) (name : String),
        lookupFirst name cookies = none → cookieParamValue cookies name = "")
    ∧ (∀ (V : Type) (_inst : Inhabited V) (session : String → Except String (Option V))
        (name e : String), session name = Except.error e →
        sessionParamValue session name = default)
    ∧ (∀ (V : Type) (_inst : Inhabited V) (session : String → Except String (Option V))
        (name : String), session name = Except.ok none →
        sessionParamValue session name = default)
    ∧ (∀ (V R : Type) (_inst : Inhabited V) (handler : String → String → V → R)
        (hName cName sName : String),
        wrapperContextAdapter handler [] []
          (fun _ => Except.error "no session store") hName cName sName
          = handler "" "" default) := by
  refine ⟨?_, ?_, ?_, ?_, ?_, ?_⟩
  · intro headers name h
    rw [headerParamValue, h]
    rfl
  · intro headers name v h hv
    rw [headerParamValue, h, Option.some_bind, hv]
    rfl
  · intro cookies name h
    rw [cookieParamValue, h]
    rfl
  · intro V _inst session name e h
    rw [sessionParamValue, h]
    rfl
  · intro V _inst session name h
    rw [sessionParamValue, h]
    rfl
  · intro V R _inst handler hName cName sName
    rfl

/-- Witness for C8: empty header map, empty cookie jar and an erroring
session store, with a pairing handler observing the bound values. -/
theorem context_lookup_defaults_witness :
    headerParamValue [] "x_token" = ""
    ∧ cookieParamValue [] "sid" = ""
    ∧ wrapperContextAdapter (V := Nat) (fun a b c => (a, b, c)) [] []
        (fun _ => Except.error "no session store") "x_token" "sid" "uid"
        = ("", "", 0) := by
  refine ⟨context_lookup_defaults.1 [] "x_token" rfl,
    context_lookup_defaults.2.2.1 [] "sid" rfl, ?_⟩
  rw [context_lookup_defaults.2.2.2.2.2 Nat (String × String × Nat) inferInstance
    (fun a b c => (a, b, c)) "x_token" "sid" "uid"]
  rfl

/-- C9 counterexample: the same extractor map iterated in two different
orders — as two runs of the pass may do, since Rust's `HashMap` iteration
order varies between instances — produces multiple-body-extractors
diagnostics with different text, so two runs on identical controller source
need not yield diagnostics with identical text. -/
theorem diagnostics_iteration_order_counterexample :
    ([("x", ExtractorType.Json), ("y", ExtractorType.Form)].Perm
      [("y", ExtractorType.Form), ("x", ExtractorType.Json)])
    ∧ validate_extractors [("x", ExtractorType.Json), ("y", ExtractorType.Form)] "post"
        ≠ validate_extractors [("y", ExtractorType.Form), ("x", ExtractorType.Json)] "post" := by
  refine ⟨by decide, by decide⟩

/-- C9 amended: the pass is deterministic up to diagnostic enumeration
order: across any two iteration orders of the same extractor map, the
resolved extractor of every parameter is identical (so the route set is
identical), and the emitted diagnostics agree as multisets once the text of
the entry-enumerating multiple-body-extractors message is erased; the text
of that message itself may differ between runs. -/
theorem pass_deterministic_up_to_diag_order
    (ex ex' : List (String × ExtractorType)) (m path : String)
    (hperm : ex.Perm ex') (hnd : (ex.map Prod.fst).Nodup) :
    (∀ n, lookupFirst n ex = lookupFirst n ex')
    ∧ ((validate_extractors ex m).map diagShape).Perm
        ((validate_extractors ex' m).map diagShape)
    ∧ (validate_path_parameters path ex).Perm (validate_path_parameters path ex') := by
  have hlk : ∀ n, lookupFirst n ex = lookupFirst n ex' :=
    fun n => lookupFirst_perm hperm hnd n
  refine ⟨hlk, ?_, ?_⟩
  · have hbody : (ex.filter (fun p => p.2.is_body_extractor)).Perm
        (ex'.filter (fun p => p.2.is_body_extractor)) := hperm.filter _
    have hlen := hbody.length_eq
    simp only [validate_extractors]
    by_cases h : 1 < (ex.filter (fun p => p.2.is_body_extractor)).length
    · have h' : 1 < (ex'.filter (fun p => p.2.is_body_extractor)).length := by
        rw [← hlen]; exact h
      rw [if_pos h, if_pos h']
      simp [diagShape]
    · have h' : ¬ 1 < (ex'.filter (fun p => p.2.is_body_extractor)).length := by
        rw [← hlen]; exact h
      rw [if_neg h, if_neg h', List.map_append, List.map_append]
      refine List.Perm.append ?_ (List.Perm.map _ (hperm.filterMap _))
      have hbe : ex.filter (fun p => p.2.is_body_extractor)
          = ex'.filter (fun p => p.2.is_body_extractor) := by
        cases hb : ex.filter (fun p => p.2.is_body_extractor) with
        | nil =>
          rw [hb] at hbody
          exact List.Perm.nil_eq hbody
        | cons a tl =>
          rw [hb] at hbody h
          have htl : tl = [] := by
            cases tl with
            | nil => rfl
            | cons b tb =>
              refine absurd ?_ h
              rw [List.length_cons, List.length_cons]
              omega
          subst htl
          exact List.singleton_perm.1 hbody
      rw [hbe]
  · simp only [validate_path_parameters]
    have hfun : (fun param => match lookupFirst param ex with
          | some ExtractorType.Path => none
          | some other => some (PathDiag.errWrongKind param path other)
          | none => some (PathDiag.errMissing param path))
        = (fun param => match lookupFirst param ex' with
          | some ExtractorType.Path => none
          | some other => some (PathDiag.errWrongKind param path other)
          | none => some (PathDiag.errMissing param path)) :=
      funext fun param => by rw [hlk param]
    rw [hfun]
    exact List.Perm.append (List.Perm.refl _) ((hperm.filter _).filterMap _)

/-- Witness for C9 amended at the map {h: HeaderParam, b: Json} and its
reversed iteration order. -/
theorem pass_deterministic_witness :
    ((validate_extractors
        [("h", ExtractorType.HeaderParam), ("b", ExtractorType.Json)] "get").map
        diagShape).Perm
      ((validate_extractors
        [("b", ExtractorType.Json), ("h", ExtractorType.HeaderParam)] "get").map
        diagShape) :=
  (pass_deterministic_up_to_diag_order
    [("h", ExtractorType.HeaderParam), ("b", ExtractorType.Json)]
    [("b", ExtractorType.Json), ("h", ExtractorType.HeaderParam)]
    "get" "/" (by decide) (by decide)).2.1

/-- Scanning past a quote-free prefix stops exactly at the first quote. -/
theorem dropWhile_notQuote_append (l r : List Char) (h : l.all isNotQuote = true) :
    (l ++ '"' :: r).dropWhile isNotQuote = '"' :: r := by
  induction l with
  | nil => rfl
  | cons c cl ih =>
    rw [List.all_cons, Bool.and_eq_true] at h
    rw [List.cons_append, List.dropWhile_cons, if_pos h.1]
    exact ih h.2

/-- Taking up to the first quote after a quote-free prefix yields exactly
that prefix. -/
theorem takeWhile_notQuote_append (l r : List Char) (h : l.all isNotQuote = true) :
    (l ++ '"' :: r).takeWhile isNotQuote = l := by
  induction l with
  | nil => rfl
  | cons c cl ih =>
    rw [List.all_cons, Bool.and_eq_true] at h
    rw [List.cons_append, List.takeWhile_cons, if_pos h.1, ih h.2]

/-- C10: the parsed route path is the first double-quoted literal occurring
anywhere in the annotation's token text, normalized by prefixing `/` when
needed and defaulting to `/` when no quote (and hence no literal) exists —
so an annotation with no path literal but a `header("name", "value")`
argument gets the route path `/name`. -/
theorem extract_route_path_spec :
    (∀ pre p post : List Char,
      pre.all isNotQuote = true → p.all isNotQuote = true →
      extract_route_path (pre ++ '"' :: (p ++ '"' :: post)) = normalizePath p)
    ∧ (∀ attr : List Char, attr.all isNotQuote = true → extract_route_path attr = "/")
    ∧ extract_route_path headerOnlyAttr.toList = "/name" := by
  refine ⟨?_, ?_, by decide⟩
  · intro pre p post hpre hp
    rw [extract_route_path, dropWhile_notQuote_append pre _ hpre]
    rw [List.isEmpty_cons, if_neg Bool.false_ne_true, List.tail_cons]
    dsimp only
    rw [dropWhile_notQuote_append p post hp, takeWhile_notQuote_append p post hp]
    rw [List.isEmpty_cons, if_neg Bool.false_ne_true]
    rw [normalizePath]
  · intro attr h
    have hd : attr.dropWhile isNotQuote = [] :=
      List.dropWhile_eq_nil_iff.2 (fun c hc => List.all_eq_true.1 h c hc)
    rw [extract_route_path, hd]
    rfl

/-- Witness for C10 at the annotation text `get ("/users")`. -/
theorem extract_route_path_spec_witness :
    extract_route_path (("get (").toList ++ '"' :: (("/users").toList ++ '"' :: (")").toList))
      = normalizePath (("/users").toList) :=
  extract_route_path_spec.1 (("get (").toList) (("/users").toList) ((")").toList)
    (by decide) (by decide)

end RouteController
